import Mathlib

/-!
# Verification of the victimless-camera orbit-camera controller

Shallow embedding of `src/lib.rs` (a Bevy third-person camera plugin).
`f32` values are idealised as real numbers; the external math types
(`Vec2`, `Vec3`, `Quat`, `Transform` from bevy/glam) are embedded with
their standard real-arithmetic semantics.
-/

noncomputable section

namespace VictimlessCamera

open Real

/-- Embedding of glam `Vec2`. -/
structure Vec2 where
  x : ℝ
  y : ℝ

/-- Embedding of glam `Vec3`. -/
structure Vec3 where
  x : ℝ
  y : ℝ
  z : ℝ

namespace Vec3

instance : Zero Vec3 := ⟨⟨0, 0, 0⟩⟩

instance : Add Vec3 := ⟨fun a b => ⟨a.x + b.x, a.y + b.y, a.z + b.z⟩⟩

instance : Sub Vec3 := ⟨fun a b => ⟨a.x - b.x, a.y - b.y, a.z - b.z⟩⟩

instance : SMul ℝ Vec3 := ⟨fun t v => ⟨t * v.x, t * v.y, t * v.z⟩⟩

theorem zero_def : (0 : Vec3) = ⟨0, 0, 0⟩ := rfl

theorem add_def (a b : Vec3) : a + b = ⟨a.x + b.x, a.y + b.y, a.z + b.z⟩ := rfl

theorem sub_def (a b : Vec3) : a - b = ⟨a.x - b.x, a.y - b.y, a.z - b.z⟩ := rfl

theorem smul_def (t : ℝ) (v : Vec3) : t • v = ⟨t * v.x, t * v.y, t * v.z⟩ := rfl

/-- glam `Vec3::lerp`: `self + ((rhs - self) * s)`. -/
def lerp (a b : Vec3) (s : ℝ) : Vec3 := a + s • (b - a)

/-- Euclidean length of a vector, as glam `Vec3::length`. -/
def norm (v : Vec3) : ℝ := Real.sqrt (v.x ^ 2 + v.y ^ 2 + v.z ^ 2)

/-- Distance between two points. -/
def dist (a b : Vec3) : ℝ := (a - b).norm

/-- glam `Vec3::normalize_or_zero`: the unit vector in the same direction,
or the zero vector when the length is (near-)zero. -/
def normalizeOrZero (v : Vec3) : Vec3 :=
  if v.norm = 0 then 0 else (1 / v.norm) • v

/-- Cross product, as glam `Vec3::cross`. -/
def cross (a b : Vec3) : Vec3 :=
  ⟨a.y * b.z - a.z * b.y, a.z * b.x - a.x * b.z, a.x * b.y - a.y * b.x⟩

end Vec3

/-- Embedding of glam `Quat` (x, y, z imaginary parts, w real part). -/
structure Quat where
  x : ℝ
  y : ℝ
  z : ℝ
  w : ℝ

namespace Quat

/-- Hamilton product, as glam `Quat::mul`. -/
instance : Mul Quat :=
  ⟨fun a b =>
    ⟨a.w * b.x + a.x * b.w + a.y * b.z - a.z * b.y,
     a.w * b.y - a.x * b.z + a.y * b.w + a.z * b.x,
     a.w * b.z + a.x * b.y - a.y * b.x + a.z * b.w,
     a.w * b.w - a.x * b.x - a.y * b.y - a.z * b.z⟩⟩

/-- glam `Quat::IDENTITY`. -/
def identity : Quat := ⟨0, 0, 0, 1⟩

/-- glam `Quat::from_rotation_y`: rotation of `θ` radians about the y axis. -/
def fromRotationY (θ : ℝ) : Quat := ⟨0, Real.sin (θ / 2), 0, Real.cos (θ / 2)⟩

/-- glam `Quat::from_rotation_x`: rotation of `θ` radians about the x axis. -/
def fromRotationX (θ : ℝ) : Quat := ⟨Real.sin (θ / 2), 0, 0, Real.cos (θ / 2)⟩

/-- The imaginary (vector) part of a quaternion. -/
def xyz (q : Quat) : Vec3 := ⟨q.x, q.y, q.z⟩

/-- glam `Quat * Vec3` (`mul_vec3`): rotates a vector by a (unit) quaternion,
computed as `v + 2 * cross(q.xyz, w * v + cross(q.xyz, v))`. -/
def rotate (q : Quat) (v : Vec3) : Vec3 :=
  v + (2 : ℝ) • (q.xyz.cross (q.w • v + q.xyz.cross v))

/-- Quaternion linear interpolation (glam `Quat::lerp`, before normalisation). -/
def lerpRaw (a b : Quat) (s : ℝ) : Quat :=
  ⟨a.x + s * (b.x - a.x), a.y + s * (b.y - a.y),
   a.z + s * (b.z - a.z), a.w + s * (b.w - a.w)⟩

/-- Length of a quaternion viewed as a 4-vector. -/
def qnorm (q : Quat) : ℝ := Real.sqrt (q.x ^ 2 + q.y ^ 2 + q.z ^ 2 + q.w ^ 2)

/-- Normalisation of a quaternion (identity when degenerate). -/
def qnormalize (q : Quat) : Quat :=
  if q.qnorm = 0 then identity
  else ⟨q.x / q.qnorm, q.y / q.qnorm, q.z / q.qnorm, q.w / q.qnorm⟩

/-- Modelled from the spec: `Quat::slerp` is code of the external math
library (bevy/glam), not present under `src/`.  The spec states the
interpolation factor is clamped internally, so a factor of `1` or more
snaps the result exactly to the target rotation; below the clamp point it
interpolates smoothly (modelled here as normalised linear interpolation,
the short-arc branch of the library routine). -/
def slerp (a b : Quat) (s : ℝ) : Quat :=
  if 1 ≤ s then b
  else if s ≤ 0 then a
  else qnormalize (lerpRaw a b s)

end Quat

/-- Embedding of bevy `Transform` (the fields this crate reads or writes,
plus `scale`, which it never touches). -/
structure Transform where
  translation : Vec3
  rotation : Quat
  scale : Vec3

/-- `RotationLimits(pub f32, pub f32)`: used for clamping camera angles,
`(min, max)` in degrees.  `minDeg` embeds field `.0`, `maxDeg` field `.1`. -/
structure RotationLimits where
  minDeg : ℝ
  maxDeg : ℝ

/-- `f32::to_degrees`: `self * (180 / π)`. -/
def toDegrees (v : ℝ) : ℝ := v * (180 / Real.pi)

/-- `f32::to_radians`: `self * (π / 180)`. -/
def toRadians (v : ℝ) : ℝ := v * (Real.pi / 180)

/-- `RotationLimits::clamp`: converts `value` to degrees, returns
`min.to_radians()` when below `min`, `max.to_radians()` when above `max`,
and `value` itself otherwise. -/
def RotationLimits.clamp (l : RotationLimits) (value : ℝ) : ℝ :=
  let asDegrees := toDegrees value
  if asDegrees < l.minDeg then toRadians l.minDeg
  else if asDegrees > l.maxDeg then toRadians l.maxDeg
  else value

/-- `CameraSettings` resource. -/
structure CameraSettings where
  x_sensitivity : ℝ
  y_sensitivity : ℝ
  smoothing : ℝ
  head_position : Vec3
  x_limits : RotationLimits
  x_angle : ℝ
  y_angle : ℝ

namespace CameraSettings

/-- `CameraSettings::rotate_x`: accumulates pitch and re-clamps. -/
def rotate_x (s : CameraSettings) (value : ℝ) : CameraSettings :=
  { s with x_angle := s.x_limits.clamp (s.x_angle + value) }

/-- `CameraSettings::rotate_y`: accumulates yaw, unclamped. -/
def rotate_y (s : CameraSettings) (value : ℝ) : CameraSettings :=
  { s with y_angle := s.y_angle + value }

end CameraSettings

/-- `MovementCompass(pub Quat, pub Vec3)`: `rot` embeds field `.0` (the
camera rotation), `pos` field `.1` (the camera position). -/
structure MovementCompass where
  rot : Quat
  pos : Vec3

/-- `MovementCompass::interpolate_direction`: rotates `(input.x, 0, -input.y)`
by the stored rotation and normalises (zero vector when degenerate). -/
def MovementCompass.interpolate_direction (c : MovementCompass) (input : Vec2) : Vec3 :=
  (c.rot.rotate ⟨input.x, 0, -input.y⟩).normalizeOrZero

/-- `RotateCameraEvent(pub Vec2)`. -/
structure RotateCameraEvent where
  v : Vec2

/-- `CameraOrientation` internal notification. -/
structure CameraOrientation where
  rotation : Quat
  translation : Vec3

/-- The anchor entity seen by `translate_camera`: its transform together
with the `CameraAnchor(pub Option<Vec3>)` component. -/
structure AnchorEntity where
  transform : Transform
  offset : Option Vec3

/-- The state the systems read and write: the `CameraSettings` and
`MovementCompass` resources, the transform of the (at most one)
`MainCamera` entity and the (at most one) anchor entity.  `none` models
the absence of the entity (`get_single` returning `Err`). -/
structure World where
  settings : CameraSettings
  compass : MovementCompass
  camera : Option Transform
  anchor : Option AnchorEntity

/-- Processing of one `RotateCameraEvent` by the body of the loop in
`read_camera_rotation_inputs` (`dt` is `time.delta_seconds()`). -/
def processRotateEvent (dt : ℝ) (s : CameraSettings) (e : RotateCameraEvent) :
    CameraSettings :=
  let s1 := if e.v.x ≠ 0
    then s.rotate_y (-e.v.x * toRadians 360 * dt * s.x_sensitivity)
    else s
  if e.v.y ≠ 0
    then s1.rotate_x (-e.v.y * toRadians 360 * dt * s1.y_sensitivity)
    else s1

/-- `read_camera_rotation_inputs`: folds the queued events, in order, over
the settings. -/
def read_camera_rotation_inputs (dt : ℝ) (events : List RotateCameraEvent)
    (s : CameraSettings) : CameraSettings :=
  events.foldl (processRotateEvent dt) s

/-- `translate_camera`: repositions the camera toward the anchor (plus the
optionally rotated offset); a silent no-op when either entity is missing. -/
def translate_camera (dt : ℝ) (w : World) : World :=
  match w.camera with
  | none => w
  | some cam =>
    match w.anchor with
    | none => w
    | some a =>
      match a.offset with
      | some offset =>
        let desired_rotation := Quat.fromRotationY w.settings.y_angle *
          Quat.fromRotationX w.settings.x_angle
        let camera_position := desired_rotation.rotate offset + a.transform.translation
        let newT := cam.translation.lerp camera_position (dt * w.settings.smoothing)
        { w with camera := some { cam with translation := newT } }
      | none =>
        let newT := cam.translation.lerp a.transform.translation (dt * w.settings.smoothing)
        { w with camera := some { cam with translation := newT } }

/-- `rotate_camera`: reorients the camera toward the desired rotation and
triggers a `CameraOrientation` notification; a silent no-op when the camera
entity is missing.  The second component is the triggered event, if any. -/
def rotate_camera (dt : ℝ) (w : World) : World × Option CameraOrientation :=
  match w.camera with
  | none => (w, none)
  | some cam =>
    let desired_rotation := Quat.fromRotationY w.settings.y_angle *
      Quat.fromRotationX w.settings.x_angle
    let newRot := cam.rotation.slerp desired_rotation (dt * w.settings.smoothing)
    ({ w with camera := some { cam with rotation := newRot } },
     some ⟨newRot, cam.translation⟩)

/-- `update_compass` observer: copies the notification into the compass. -/
def update_compass (ev : CameraOrientation) (_c : MovementCompass) : MovementCompass :=
  ⟨ev.rotation, ev.translation⟩

/-! ## Helper lemmas about the degree/radian conversions -/

theorem toDegrees_toRadians (d : ℝ) : toDegrees (toRadians d) = d := by
  unfold toDegrees toRadians
  field_simp

theorem toRadians_toDegrees (v : ℝ) : toRadians (toDegrees v) = v := by
  unfold toDegrees toRadians
  field_simp

theorem toRadians_le_toRadians {a b : ℝ} (h : a ≤ b) : toRadians a ≤ toRadians b := by
  unfold toRadians
  have hpi : (0 : ℝ) < Real.pi / 180 := by positivity
  nlinarith

theorem clamp_of_lt_min {l : RotationLimits} {v : ℝ} (h : toDegrees v < l.minDeg) :
    l.clamp v = toRadians l.minDeg := by
  unfold RotationLimits.clamp
  simp only [if_pos h]

theorem clamp_of_gt_max {l : RotationLimits} {v : ℝ} (h1 : ¬ toDegrees v < l.minDeg)
    (h2 : toDegrees v > l.maxDeg) : l.clamp v = toRadians l.maxDeg := by
  unfold RotationLimits.clamp
  simp only [if_neg h1, if_pos h2]

theorem clamp_of_within {l : RotationLimits} {v : ℝ} (h1 : l.minDeg ≤ toDegrees v)
    (h2 : toDegrees v ≤ l.maxDeg) : l.clamp v = v := by
  unfold RotationLimits.clamp
  simp only [not_lt.mpr h1, if_neg, if_false]
  rw [if_neg (not_lt.mpr h2)]

theorem clamp_mem_of_le {l : RotationLimits} (h : l.minDeg ≤ l.maxDeg) (v : ℝ) :
    toRadians l.minDeg ≤ l.clamp v ∧ l.clamp v ≤ toRadians l.maxDeg := by
  by_cases h1 : toDegrees v < l.minDeg
  · rw [clamp_of_lt_min h1]
    exact ⟨le_refl _, toRadians_le_toRadians h⟩
  · by_cases h2 : toDegrees v > l.maxDeg
    · rw [clamp_of_gt_max h1 h2]
      exact ⟨toRadians_le_toRadians h, le_refl _⟩
    · rw [clamp_of_within (not_lt.mp h1) (not_lt.mp h2)]
      constructor
      · calc toRadians l.minDeg ≤ toRadians (toDegrees v) :=
              toRadians_le_toRadians (not_lt.mp h1)
          _ = v := toRadians_toDegrees v
      · calc v = toRadians (toDegrees v) := (toRadians_toDegrees v).symm
          _ ≤ toRadians l.maxDeg := toRadians_le_toRadians (not_lt.mp h2)

/-! ## Claim theorems -/

/-- C1: whenever the limits satisfy `min_degrees ≤ max_degrees` and the
starting pitch lies within them in degrees, `rotate_x` (the code's name
for `rotate_pitch`) leaves `x_angle` within
`[min_degrees.to_radians(), max_degrees.to_radians()]` for a delta of any
magnitude (the clamp saturates, it does not wrap), and the only other
mutator, `rotate_y`, never touches `x_angle`. -/
theorem rotate_x_within_limits (s : CameraSettings) (d : ℝ)
    (hlim : s.x_limits.minDeg ≤ s.x_limits.maxDeg)
    (_hlo : s.x_limits.minDeg ≤ toDegrees s.x_angle)
    (_hhi : toDegrees s.x_angle ≤ s.x_limits.maxDeg) :
    toRadians s.x_limits.minDeg ≤ (s.rotate_x d).x_angle ∧
    (s.rotate_x d).x_angle ≤ toRadians s.x_limits.maxDeg ∧
    (s.rotate_y d).x_angle = s.x_angle := by
  refine ⟨?_, ?_, rfl⟩
  · exact (clamp_mem_of_le hlim (s.x_angle + d)).1
  · exact (clamp_mem_of_le hlim (s.x_angle + d)).2

theorem rotate_x_within_limits_witness :
    toRadians (⟨1, 1, 1, 0, ⟨-45, 60⟩, 0, 0⟩ : CameraSettings).x_limits.minDeg ≤
      ((⟨1, 1, 1, 0, ⟨-45, 60⟩, 0, 0⟩ : CameraSettings).rotate_x 100).x_angle ∧
    ((⟨1, 1, 1, 0, ⟨-45, 60⟩, 0, 0⟩ : CameraSettings).rotate_x 100).x_angle ≤
      toRadians (⟨1, 1, 1, 0, ⟨-45, 60⟩, 0, 0⟩ : CameraSettings).x_limits.maxDeg ∧
    ((⟨1, 1, 1, 0, ⟨-45, 60⟩, 0, 0⟩ : CameraSettings).rotate_y 100).x_angle =
      (⟨1, 1, 1, 0, ⟨-45, 60⟩, 0, 0⟩ : CameraSettings).x_angle :=
  rotate_x_within_limits ⟨1, 1, 1, 0, ⟨-45, 60⟩, 0, 0⟩ 100
    (by norm_num)
    (by show (-45 : ℝ) ≤ toDegrees 0; simp [toDegrees])
    (by show toDegrees 0 ≤ (60 : ℝ); simp [toDegrees])

/-- C2: `RotationLimits::clamp` converts the input to degrees and clamps:
below `min_degrees` it returns `min_degrees` in radians; at or above
`min_degrees` but above `max_degrees` it returns `max_degrees` in radians;
within the bounds it returns the input unchanged.  For limits `(-45, 60)`
the three concrete cases of the spec hold, and with inverted limits
(`min_degrees > max_degrees`) a value between the swapped bounds is clamped
to `min_degrees`, because the first branch wins. -/
theorem clamp_behavior :
    (∀ l : RotationLimits, ∀ v : ℝ, toDegrees v < l.minDeg →
      l.clamp v = toRadians l.minDeg) ∧
    (∀ l : RotationLimits, ∀ v : ℝ, l.minDeg ≤ toDegrees v → l.maxDeg < toDegrees v →
      l.clamp v = toRadians l.maxDeg) ∧
    (∀ l : RotationLimits, ∀ v : ℝ, l.minDeg ≤ toDegrees v → toDegrees v ≤ l.maxDeg →
      l.clamp v = v) ∧
    RotationLimits.clamp ⟨-45, 60⟩ (toRadians 100) = toRadians 60 ∧
    RotationLimits.clamp ⟨-45, 60⟩ (toRadians (-90)) = toRadians (-45) ∧
    RotationLimits.clamp ⟨-45, 60⟩ (toRadians 10) = toRadians 10 ∧
    (∀ l : RotationLimits, ∀ v : ℝ, l.maxDeg < l.minDeg →
      l.maxDeg < toDegrees v → toDegrees v < l.minDeg →
      l.clamp v = toRadians l.minDeg) := by
  refine ⟨fun l v h => clamp_of_lt_min h,
    fun l v h1 h2 => clamp_of_gt_max (not_lt.mpr h1) h2,
    fun l v h1 h2 => clamp_of_within h1 h2, ?_, ?_, ?_,
    fun l v _h hmax hmin => clamp_of_lt_min hmin⟩
  · exact clamp_of_gt_max
      (by rw [toDegrees_toRadians]; norm_num) (by rw [toDegrees_toRadians]; norm_num)
  · exact clamp_of_lt_min (by rw [toDegrees_toRadians]; norm_num)
  · exact clamp_of_within
      (by rw [toDegrees_toRadians]; norm_num) (by rw [toDegrees_toRadians]; norm_num)

theorem clamp_behavior_witness :
    RotationLimits.clamp ⟨0, 90⟩ (toRadians (-30)) = toRadians (0 : ℝ) :=
  clamp_behavior.1 ⟨0, 90⟩ (toRadians (-30)) (by rw [toDegrees_toRadians]; norm_num)

/-- C4: `rotate_y` (the code's name for `rotate_yaw`) is purely additive
and unclamped: two consecutive calls with deltas `d1` and `d2` leave
`CameraSettings` in exactly the state of a single call with `d1 + d2`, and
a single call adds its delta to `y_angle` verbatim. -/
theorem rotate_y_additive (s : CameraSettings) (d1 d2 : ℝ) :
    (s.rotate_y d1).rotate_y d2 = s.rotate_y (d1 + d2) ∧
    (s.rotate_y d1).y_angle = s.y_angle + d1 ∧
    (s.rotate_y d1).x_angle = s.x_angle := by
  refine ⟨?_, rfl, rfl⟩
  simp [CameraSettings.rotate_y, add_assoc]

theorem toRadians_360 : toRadians 360 = 2 * Real.pi := by
  unfold toRadians; ring

/-- C3: the rotation input handler scales each queued event by `2π`, the
frame's elapsed time and the sensitivities: a nonzero `x` axis calls
`rotate_y` with `-x * 2π * dt * x_sensitivity`, a nonzero `y` axis calls
`rotate_x` with `-y * 2π * dt * y_sensitivity`, a zero axis leaves the
corresponding angle untouched, events are folded in order with the same
`dt`, and with both sensitivities `1`, `dt = 1` and the single event
`(0.25, 0)` the yaw changes by exactly `-0.25 * 2π` while the pitch is
untouched. -/
theorem read_inputs_behavior :
    (∀ dt : ℝ, ∀ s : CameraSettings, ∀ e : RotateCameraEvent,
      e.v.x ≠ 0 → e.v.y = 0 →
      processRotateEvent dt s e =
        s.rotate_y (-e.v.x * (2 * Real.pi) * dt * s.x_sensitivity)) ∧
    (∀ dt : ℝ, ∀ s : CameraSettings, ∀ e : RotateCameraEvent,
      e.v.x = 0 → e.v.y ≠ 0 →
      processRotateEvent dt s e =
        s.rotate_x (-e.v.y * (2 * Real.pi) * dt * s.y_sensitivity)) ∧
    (∀ dt : ℝ, ∀ s : CameraSettings, ∀ e : RotateCameraEvent,
      e.v.x ≠ 0 → e.v.y ≠ 0 →
      processRotateEvent dt s e =
        (s.rotate_y (-e.v.x * (2 * Real.pi) * dt * s.x_sensitivity)).rotate_x
          (-e.v.y * (2 * Real.pi) * dt * s.y_sensitivity)) ∧
    (∀ dt : ℝ, ∀ s : CameraSettings, ∀ e : RotateCameraEvent,
      e.v.x = 0 → (processRotateEvent dt s e).y_angle = s.y_angle) ∧
    (∀ dt : ℝ, ∀ s : CameraSettings, ∀ e : RotateCameraEvent,
      e.v.y = 0 → (processRotateEvent dt s e).x_angle = s.x_angle) ∧
    (∀ dt : ℝ, ∀ s : CameraSettings, ∀ e : RotateCameraEvent,
      ∀ es : List RotateCameraEvent,
      read_camera_rotation_inputs dt (e :: es) s =
        read_camera_rotation_inputs dt es (processRotateEvent dt s e)) ∧
    (∀ s : CameraSettings, s.x_sensitivity = 1 → s.y_sensitivity = 1 →
      (read_camera_rotation_inputs 1 [⟨⟨0.25, 0⟩⟩] s).y_angle =
        s.y_angle + -(0.25) * (2 * Real.pi) ∧
      (read_camera_rotation_inputs 1 [⟨⟨0.25, 0⟩⟩] s).x_angle = s.x_angle) := by
  have h2pi : toRadians 360 = 2 * Real.pi := toRadians_360
  refine ⟨?_, ?_, ?_, ?_, ?_, ?_, ?_⟩
  · intro dt s e hx hy
    simp [processRotateEvent, hx, hy, h2pi]
  · intro dt s e hx hy
    simp [processRotateEvent, hx, hy, h2pi]
  · intro dt s e hx hy
    simp [processRotateEvent, hx, hy, h2pi, CameraSettings.rotate_y]
  · intro dt s e hx
    by_cases hy : e.v.y = 0
    · simp [processRotateEvent, hx, hy]
    · simp [processRotateEvent, hx, hy, CameraSettings.rotate_x]
  · intro dt s e hy
    by_cases hx : e.v.x = 0
    · simp [processRotateEvent, hx, hy]
    · simp [processRotateEvent, hx, hy, CameraSettings.rotate_y]
  · intro dt s e es
    rfl
  · intro s hxs hys
    have hx : ((0.25 : ℝ)) ≠ 0 := by norm_num
    constructor
    · simp [read_camera_rotation_inputs, processRotateEvent, hx,
        CameraSettings.rotate_y, hxs, h2pi]
    · simp [read_camera_rotation_inputs, processRotateEvent, hx,
        CameraSettings.rotate_y]

theorem read_inputs_behavior_witness :
    (read_camera_rotation_inputs 1 [⟨⟨0.25, 0⟩⟩]
        (⟨1, 1, 1, 0, ⟨-45, 60⟩, 0, 0⟩ : CameraSettings)).y_angle =
      (⟨1, 1, 1, 0, ⟨-45, 60⟩, 0, 0⟩ : CameraSettings).y_angle +
        -(0.25) * (2 * Real.pi) ∧
    (read_camera_rotation_inputs 1 [⟨⟨0.25, 0⟩⟩]
        (⟨1, 1, 1, 0, ⟨-45, 60⟩, 0, 0⟩ : CameraSettings)).x_angle =
      (⟨1, 1, 1, 0, ⟨-45, 60⟩, 0, 0⟩ : CameraSettings).x_angle :=
  read_inputs_behavior.2.2.2.2.2.2 ⟨1, 1, 1, 0, ⟨-45, 60⟩, 0, 0⟩ rfl rfl

/-- C9: `interpolate_direction` returns the normalisation of the stored
rotation applied to `(x, 0, -y)`, the zero vector when that rotated vector
has zero magnitude; input `(0,0)` yields the zero vector, and under the
identity rotation `(1,0)` yields the unit vector along `+x` and `(0,1)`
the unit vector along `-z`. -/
theorem interpolate_direction_behavior :
    (∀ c : MovementCompass, ∀ input : Vec2,
      c.interpolate_direction input =
        (c.rot.rotate ⟨input.x, 0, -input.y⟩).normalizeOrZero) ∧
    (∀ c : MovementCompass, ∀ input : Vec2,
      (c.rot.rotate ⟨input.x, 0, -input.y⟩).norm = 0 →
      c.interpolate_direction input = 0) ∧
    (∀ c : MovementCompass, c.interpolate_direction ⟨0, 0⟩ = 0) ∧
    (∀ c : MovementCompass, c.rot = Quat.identity →
      c.interpolate_direction ⟨1, 0⟩ = ⟨1, 0, 0⟩ ∧
      c.interpolate_direction ⟨0, 1⟩ = ⟨0, 0, -1⟩) := by
  refine ⟨fun c input => rfl, ?_, ?_, ?_⟩
  · intro c input h
    unfold MovementCompass.interpolate_direction Vec3.normalizeOrZero
    simp [h]
  · intro c
    unfold MovementCompass.interpolate_direction Vec3.normalizeOrZero
    have hz : c.rot.rotate ⟨0, 0, -0⟩ = 0 := by
      unfold Quat.rotate Quat.xyz Vec3.cross
      simp [Vec3.smul_def, Vec3.add_def, Vec3.zero_def]
    rw [hz]
    simp [Vec3.norm, Vec3.zero_def]
  · intro c hc
    have hrot : ∀ v : Vec3, c.rot.rotate v = v := by
      intro v
      rw [hc]
      unfold Quat.rotate Quat.xyz Quat.identity Vec3.cross
      simp [Vec3.smul_def, Vec3.add_def, Vec3.zero_def]
    constructor
    · unfold MovementCompass.interpolate_direction
      rw [hrot]
      unfold Vec3.normalizeOrZero Vec3.norm
      norm_num [Vec3.smul_def]
    · unfold MovementCompass.interpolate_direction
      rw [hrot]
      unfold Vec3.normalizeOrZero Vec3.norm
      norm_num [Vec3.smul_def]

theorem interpolate_direction_witness :
    MovementCompass.interpolate_direction ⟨Quat.identity, 0⟩ ⟨1, 0⟩ = ⟨1, 0, 0⟩ ∧
    MovementCompass.interpolate_direction ⟨Quat.identity, 0⟩ ⟨0, 1⟩ = ⟨0, 0, -1⟩ :=
  interpolate_direction_behavior.2.2.2 ⟨Quat.identity, 0⟩ rfl

/-! ## Helper lemmas about the per-frame systems -/

theorem translate_camera_fields (dt : ℝ) (w : World) :
    (translate_camera dt w).settings = w.settings ∧
    (translate_camera dt w).compass = w.compass ∧
    (translate_camera dt w).anchor = w.anchor := by
  obtain ⟨s, c, camO, ancO⟩ := w
  rcases camO with _ | cam
  · exact ⟨rfl, rfl, rfl⟩
  · rcases ancO with _ | a
    · exact ⟨rfl, rfl, rfl⟩
    · obtain ⟨aT, aoff⟩ := a
      rcases aoff with _ | off <;> exact ⟨rfl, rfl, rfl⟩

theorem rotate_camera_fields (dt : ℝ) (w : World) :
    (rotate_camera dt w).1.settings = w.settings ∧
    (rotate_camera dt w).1.compass = w.compass ∧
    (rotate_camera dt w).1.anchor = w.anchor := by
  obtain ⟨s, c, camO, ancO⟩ := w
  rcases camO with _ | cam <;> exact ⟨rfl, rfl, rfl⟩

theorem slerp_of_one_le {a b : Quat} {s : ℝ} (h : 1 ≤ s) : a.slerp b s = b := by
  unfold Quat.slerp
  simp [h]

/-- C5: with one camera and one anchor present, the translation updater
sets the camera translation (and nothing else of the transform) to
`lerp(camera.translation, target, dt * smoothing)`, where the target is
`desired_rotation.rotate(offset) + anchor.translation` with
`desired_rotation = yaw_quat(y_angle) * pitch_quat(x_angle)` when the
anchor carries an offset, and `anchor.translation` otherwise; the
interpolation weight is the raw affine coefficient, not capped at `1`. -/
theorem translate_camera_behavior (dt : ℝ) (w : World) (cam : Transform)
    (aT : Transform) (hcam : w.camera = some cam) :
    (∀ offset : Vec3, w.anchor = some ⟨aT, some offset⟩ →
      (translate_camera dt w).camera = some ⟨Vec3.lerp cam.translation
        ((Quat.fromRotationY w.settings.y_angle *
          Quat.fromRotationX w.settings.x_angle).rotate offset +
            aT.translation)
        (dt * w.settings.smoothing), cam.rotation, cam.scale⟩) ∧
    (w.anchor = some ⟨aT, none⟩ →
      (translate_camera dt w).camera = some ⟨Vec3.lerp cam.translation
        aT.translation (dt * w.settings.smoothing),
        cam.rotation, cam.scale⟩) ∧
    (∀ c target : Vec3, ∀ s : ℝ, Vec3.lerp c target s = c + s • (target - c)) := by
  refine ⟨?_, ?_, fun c target s => rfl⟩
  · intro offset hanc
    unfold translate_camera
    rw [hcam, hanc]
  · intro hanc
    unfold translate_camera
    rw [hcam, hanc]

theorem translate_camera_behavior_witness :
    (translate_camera 2 ⟨⟨1, 1, 5, 0, ⟨-45, 60⟩, 0, 0⟩, ⟨Quat.identity, 0⟩,
        some ⟨⟨2, 3, 4⟩, Quat.identity, ⟨1, 1, 1⟩⟩,
        some ⟨⟨⟨7, 8, 9⟩, Quat.identity, ⟨1, 1, 1⟩⟩, none⟩⟩).camera =
      some ⟨Vec3.lerp ⟨2, 3, 4⟩ ⟨7, 8, 9⟩ (2 * 5), Quat.identity, ⟨1, 1, 1⟩⟩ :=
  (translate_camera_behavior 2 _ ⟨⟨2, 3, 4⟩, Quat.identity, ⟨1, 1, 1⟩⟩
    ⟨⟨7, 8, 9⟩, Quat.identity, ⟨1, 1, 1⟩⟩ rfl).2.1 rfl

/-- C6: with one camera present, the rotation updater sets the camera
rotation to `slerp(camera.rotation, desired_rotation, dt * smoothing)`
with `desired_rotation = yaw_quat(y_angle) * pitch_quat(x_angle)`, emits a
`CameraOrientation` notification carrying the new rotation and the
camera's translation, and whenever `dt * smoothing ≥ 1` the internally
clamped slerp factor makes the resulting orientation exactly
`desired_rotation`. -/
theorem rotate_camera_behavior (dt : ℝ) (w : World) (cam : Transform)
    (hcam : w.camera = some cam) :
    (rotate_camera dt w).1.camera = some ⟨cam.translation,
      Quat.slerp cam.rotation
        (Quat.fromRotationY w.settings.y_angle * Quat.fromRotationX w.settings.x_angle)
        (dt * w.settings.smoothing), cam.scale⟩ ∧
    (rotate_camera dt w).2 = some ⟨Quat.slerp cam.rotation
      (Quat.fromRotationY w.settings.y_angle * Quat.fromRotationX w.settings.x_angle)
      (dt * w.settings.smoothing), cam.translation⟩ ∧
    (1 ≤ dt * w.settings.smoothing →
      (rotate_camera dt w).1.camera = some ⟨cam.translation,
        Quat.fromRotationY w.settings.y_angle * Quat.fromRotationX w.settings.x_angle,
        cam.scale⟩) := by
  refine ⟨?_, ?_, ?_⟩
  · unfold rotate_camera
    rw [hcam]
  · unfold rotate_camera
    rw [hcam]
  · intro hs
    unfold rotate_camera
    rw [hcam]
    simp only [slerp_of_one_le hs]

theorem rotate_camera_behavior_witness :
    (rotate_camera 1 ⟨⟨1, 1, 2, 0, ⟨-45, 60⟩, 0, 0⟩, ⟨Quat.identity, 0⟩,
        some ⟨⟨2, 3, 4⟩, Quat.identity, ⟨1, 1, 1⟩⟩, none⟩).1.camera =
      some ⟨⟨2, 3, 4⟩,
        Quat.fromRotationY
            (⟨1, 1, 2, 0, ⟨-45, 60⟩, 0, 0⟩ : CameraSettings).y_angle *
          Quat.fromRotationX
            (⟨1, 1, 2, 0, ⟨-45, 60⟩, 0, 0⟩ : CameraSettings).x_angle,
        ⟨1, 1, 1⟩⟩ :=
  (rotate_camera_behavior 1 _ ⟨⟨2, 3, 4⟩, Quat.identity, ⟨1, 1, 1⟩⟩ rfl).2.2
    (by norm_num)

/-- C8: when the camera entity is missing, both per-frame updaters leave
the whole world (camera transform, `CameraSettings`, `MovementCompass`,
anchor) unchanged and the rotation updater triggers no `CameraOrientation`
notification; when the anchor entity is missing, the translation updater
likewise changes nothing.  Both are total functions, so no error is
raised: the frame is a silent no-op. -/
theorem missing_entities_noop (dt : ℝ) (w : World) :
    (w.camera = none → translate_camera dt w = w ∧ rotate_camera dt w = (w, none)) ∧
    (w.anchor = none → translate_camera dt w = w) := by
  constructor
  · intro hc
    constructor
    · unfold translate_camera
      rw [hc]
    · unfold rotate_camera
      rw [hc]
  · intro ha
    unfold translate_camera
    rcases w.camera with _ | cam
    · rfl
    · rw [ha]

theorem missing_entities_noop_witness :
    (translate_camera 1 ⟨⟨1, 1, 2, 0, ⟨-45, 60⟩, 0, 0⟩, ⟨Quat.identity, 0⟩,
        none, none⟩ =
      ⟨⟨1, 1, 2, 0, ⟨-45, 60⟩, 0, 0⟩, ⟨Quat.identity, 0⟩, none, none⟩ ∧
     rotate_camera 1 ⟨⟨1, 1, 2, 0, ⟨-45, 60⟩, 0, 0⟩, ⟨Quat.identity, 0⟩,
        none, none⟩ =
      (⟨⟨1, 1, 2, 0, ⟨-45, 60⟩, 0, 0⟩, ⟨Quat.identity, 0⟩, none, none⟩, none)) ∧
    translate_camera 1 ⟨⟨1, 1, 2, 0, ⟨-45, 60⟩, 0, 0⟩, ⟨Quat.identity, 0⟩,
        some ⟨⟨2, 3, 4⟩, Quat.identity, ⟨1, 1, 1⟩⟩, none⟩ =
      ⟨⟨1, 1, 2, 0, ⟨-45, 60⟩, 0, 0⟩, ⟨Quat.identity, 0⟩,
        some ⟨⟨2, 3, 4⟩, Quat.identity, ⟨1, 1, 1⟩⟩, none⟩ :=
  ⟨(missing_entities_noop 1 _).1 rfl, (missing_entities_noop 1 _).2 rfl⟩

theorem processRotateEvent_preserves (dt : ℝ) (s : CameraSettings)
    (e : RotateCameraEvent) :
    (processRotateEvent dt s e).x_sensitivity = s.x_sensitivity ∧
    (processRotateEvent dt s e).y_sensitivity = s.y_sensitivity ∧
    (processRotateEvent dt s e).smoothing = s.smoothing ∧
    (processRotateEvent dt s e).head_position = s.head_position ∧
    (processRotateEvent dt s e).x_limits = s.x_limits := by
  unfold processRotateEvent CameraSettings.rotate_x CameraSettings.rotate_y
  by_cases hx : e.v.x = 0 <;> by_cases hy : e.v.y = 0 <;> simp [hx, hy]

theorem read_inputs_preserves (dt : ℝ) (es : List RotateCameraEvent)
    (s : CameraSettings) :
    (read_camera_rotation_inputs dt es s).x_sensitivity = s.x_sensitivity ∧
    (read_camera_rotation_inputs dt es s).y_sensitivity = s.y_sensitivity ∧
    (read_camera_rotation_inputs dt es s).smoothing = s.smoothing ∧
    (read_camera_rotation_inputs dt es s).head_position = s.head_position ∧
    (read_camera_rotation_inputs dt es s).x_limits = s.x_limits := by
  induction es generalizing s with
  | nil => exact ⟨rfl, rfl, rfl, rfl, rfl⟩
  | cons e es ih =>
    have hp := processRotateEvent_preserves dt s e
    have hr := ih (processRotateEvent dt s e)
    exact ⟨hr.1.trans hp.1, hr.2.1.trans hp.2.1, hr.2.2.1.trans hp.2.2.1,
      hr.2.2.2.1.trans hp.2.2.2.1, hr.2.2.2.2.trans hp.2.2.2.2⟩

/-- C10: each updater writes only its own transform field: the rotation
updater preserves the camera's translation and scale, the translation
updater preserves its rotation and scale, neither touches any field of
`CameraSettings` or the compass, and the rotation input handler changes at
most `x_angle` and `y_angle` (every other settings field is preserved, for
any event list). -/
theorem updaters_write_only_own_field (dt : ℝ) (w : World) :
    ((rotate_camera dt w).1.camera).map Transform.translation =
      (w.camera).map Transform.translation ∧
    ((rotate_camera dt w).1.camera).map Transform.scale =
      (w.camera).map Transform.scale ∧
    (rotate_camera dt w).1.settings = w.settings ∧
    (rotate_camera dt w).1.compass = w.compass ∧
    ((translate_camera dt w).camera).map Transform.rotation =
      (w.camera).map Transform.rotation ∧
    ((translate_camera dt w).camera).map Transform.scale =
      (w.camera).map Transform.scale ∧
    (translate_camera dt w).settings = w.settings ∧
    (translate_camera dt w).compass = w.compass ∧
    (∀ es : List RotateCameraEvent, ∀ s : CameraSettings,
      (read_camera_rotation_inputs dt es s).x_sensitivity = s.x_sensitivity ∧
      (read_camera_rotation_inputs dt es s).y_sensitivity = s.y_sensitivity ∧
      (read_camera_rotation_inputs dt es s).smoothing = s.smoothing ∧
      (read_camera_rotation_inputs dt es s).head_position = s.head_position ∧
      (read_camera_rotation_inputs dt es s).x_limits = s.x_limits) := by
  refine ⟨?_, ?_, (rotate_camera_fields dt w).1, (rotate_camera_fields dt w).2.1,
    ?_, ?_, (translate_camera_fields dt w).1, (translate_camera_fields dt w).2.1,
    fun es s => read_inputs_preserves dt es s⟩
  · obtain ⟨s, c, camO, ancO⟩ := w
    rcases camO with _ | cam <;> rfl
  · obtain ⟨s, c, camO, ancO⟩ := w
    rcases camO with _ | cam <;> rfl
  · obtain ⟨s, c, camO, ancO⟩ := w
    rcases camO with _ | cam
    · rfl
    · rcases ancO with _ | a
      · rfl
      · obtain ⟨aT, aoff⟩ := a
        rcases aoff with _ | off <;> rfl
  · obtain ⟨s, c, camO, ancO⟩ := w
    rcases camO with _ | cam
    · rfl
    · rcases ancO with _ | a
      · rfl
      · obtain ⟨aT, aoff⟩ := a
        rcases aoff with _ | off <;> rfl

/-! ## Helper lemmas for the translation convergence analysis (C7) -/

theorem Vec3.norm_smul (t : ℝ) (v : Vec3) : (t • v).norm = |t| * v.norm := by
  cases v with
  | mk vx vy vz =>
    unfold norm
    simp only [Vec3.smul_def]
    rw [show (t * vx) ^ 2 + (t * vy) ^ 2 + (t * vz) ^ 2 =
      t ^ 2 * (vx ^ 2 + vy ^ 2 + vz ^ 2) by ring]
    rw [Real.sqrt_mul (sq_nonneg t), Real.sqrt_sq_eq_abs]

theorem Vec3.add_smul_sub_self (a v : Vec3) (k : ℝ) :
    (a + k • v) - a = k • v := by
  cases a; cases v
  simp only [Vec3.add_def, Vec3.sub_def, Vec3.smul_def, Vec3.mk.injEq]
  refine ⟨by ring, by ring, by ring⟩

theorem Vec3.lerp_step (a v : Vec3) (k s : ℝ) :
    Vec3.lerp (a + k • v) a s = a + ((1 - s) * k) • v := by
  cases a; cases v
  simp only [Vec3.lerp, Vec3.add_def, Vec3.sub_def, Vec3.smul_def, Vec3.mk.injEq]
  refine ⟨by ring, by ring, by ring⟩

theorem Vec3.add_one_smul_sub (a : Vec3) (c : Vec3) :
    a + (1 : ℝ) • (c - a) = c := by
  cases a; cases c
  simp only [Vec3.add_def, Vec3.sub_def, Vec3.smul_def, Vec3.mk.injEq]
  refine ⟨by ring, by ring, by ring⟩

theorem Vec3.dist_x (p q : ℝ) : Vec3.dist ⟨p, 0, 0⟩ ⟨q, 0, 0⟩ = |p - q| := by
  unfold Vec3.dist Vec3.norm
  simp only [Vec3.sub_def]
  rw [show (p - q) ^ 2 + ((0 : ℝ) - 0) ^ 2 + ((0 : ℝ) - 0) ^ 2 = (p - q) ^ 2 by ring]
  exact Real.sqrt_sq_eq_abs _

theorem translate_camera_apply_noOffset (dt : ℝ) (w : World) (cam aT : Transform)
    (hcam : w.camera = some cam) (hanc : w.anchor = some ⟨aT, none⟩) :
    (translate_camera dt w).camera = some ⟨Vec3.lerp cam.translation aT.translation
      (dt * w.settings.smoothing), cam.rotation, cam.scale⟩ := by
  unfold translate_camera
  rw [hcam, hanc]

theorem translate_iter_formula (dt : ℝ) (w : World) (cam aT : Transform)
    (hcam : w.camera = some cam) (hanc : w.anchor = some ⟨aT, none⟩) (n : ℕ) :
    ((translate_camera dt)^[n] w).camera = some ⟨aT.translation +
        ((1 - dt * w.settings.smoothing) ^ n) • (cam.translation - aT.translation),
        cam.rotation, cam.scale⟩ ∧
    ((translate_camera dt)^[n] w).settings = w.settings ∧
    ((translate_camera dt)^[n] w).anchor = w.anchor := by
  induction n with
  | zero =>
    refine ⟨?_, rfl, rfl⟩
    rw [Function.iterate_zero, id_eq, hcam, pow_zero, Vec3.add_one_smul_sub]
  | succ n ih =>
    obtain ⟨ihc, ihs, iha⟩ := ih
    rw [Function.iterate_succ_apply']
    have hanc2 : ((translate_camera dt)^[n] w).anchor = some ⟨aT, none⟩ := by
      rw [iha, hanc]
    refine ⟨?_, ((translate_camera_fields dt _).1).trans ihs,
      ((translate_camera_fields dt _).2.2).trans iha⟩
    rw [translate_camera_apply_noOffset dt _ _ aT ihc hanc2, ihs,
      Vec3.lerp_step, Option.some.injEq, Transform.mk.injEq]
    refine ⟨?_, rfl, rfl⟩
    rw [show (1 - dt * w.settings.smoothing) *
        (1 - dt * w.settings.smoothing) ^ n =
      (1 - dt * w.settings.smoothing) ^ (n + 1) by ring]

/-- C7 counterexample: with `smoothing = 3 > 0`, `dt = 1`, a fixed anchor
at the origin with no offset and the camera at `(1,0,0)`, one tick of
`translate_camera` moves the camera to `(-2,0,0)`: the distance to the
anchor grows from `1` to `2` (and the camera overshoots past the anchor),
so the distance does not strictly decrease under the sole hypothesis
`smoothing > 0`. -/
theorem translate_converges_counterexample :
    (translate_camera 1 ⟨⟨1, 1, 3, 0, ⟨-45, 60⟩, 0, 0⟩, ⟨Quat.identity, 0⟩,
        some ⟨⟨1, 0, 0⟩, Quat.identity, ⟨1, 1, 1⟩⟩,
        some ⟨⟨0, Quat.identity, ⟨1, 1, 1⟩⟩, none⟩⟩).camera =
      some ⟨⟨-2, 0, 0⟩, Quat.identity, ⟨1, 1, 1⟩⟩ ∧
    Vec3.dist ⟨1, 0, 0⟩ (⟨0, Quat.identity, ⟨1, 1, 1⟩⟩ : Transform).translation <
      Vec3.dist ⟨-2, 0, 0⟩ (⟨0, Quat.identity, ⟨1, 1, 1⟩⟩ : Transform).translation ∧
    (0 : ℝ) < (⟨1, 1, 3, 0, ⟨-45, 60⟩, 0, 0⟩ : CameraSettings).smoothing := by
  refine ⟨?_, ?_, by norm_num⟩
  · rw [translate_camera_apply_noOffset 1 _ ⟨⟨1, 0, 0⟩, Quat.identity, ⟨1, 1, 1⟩⟩
      ⟨0, Quat.identity, ⟨1, 1, 1⟩⟩ rfl rfl]
    simp only [Vec3.lerp, Vec3.zero_def, Vec3.sub_def, Vec3.smul_def, Vec3.add_def,
      Option.some.injEq, Transform.mk.injEq, Vec3.mk.injEq]
    norm_num
  · show Vec3.dist ⟨1, 0, 0⟩ ⟨0, 0, 0⟩ < Vec3.dist ⟨-2, 0, 0⟩ ⟨0, 0, 0⟩
    rw [Vec3.dist_x, Vec3.dist_x]
    rw [show |(1 : ℝ) - 0| = 1 by norm_num, show |(-2 : ℝ) - 0| = 2 by norm_num]
    norm_num

/-- C7 (amended): with no anchor offset, a fixed anchor, and — as forced by
the counterexample — the per-tick interpolation weight
`elapsed_seconds * smoothing` in `(0, 1]` rather than merely
`smoothing > 0`: the camera-to-anchor distance after `n` ticks is exactly
`(1 - weight)^n` times the initial distance, it strictly decreases on every
tick while nonzero, the camera stays on the segment between its start and
the anchor (a nonnegative factor at most `1` of the initial offset, so it
never overshoots past the anchor), and the distance tends to `0`. -/
theorem translate_converges (dt : ℝ) (w : World) (cam aT : Transform)
    (hcam : w.camera = some cam) (hanc : w.anchor = some ⟨aT, none⟩)
    (hpos : 0 < dt * w.settings.smoothing) (hle : dt * w.settings.smoothing ≤ 1) :
    (∀ n : ℕ, (((translate_camera dt)^[n] w).camera).map
        (fun t => Vec3.dist t.translation aT.translation) =
      some ((1 - dt * w.settings.smoothing) ^ n *
        Vec3.dist cam.translation aT.translation)) ∧
    (∀ n : ℕ, (1 - dt * w.settings.smoothing) ^ n *
        Vec3.dist cam.translation aT.translation ≠ 0 →
      (1 - dt * w.settings.smoothing) ^ (n + 1) *
          Vec3.dist cam.translation aT.translation <
        (1 - dt * w.settings.smoothing) ^ n *
          Vec3.dist cam.translation aT.translation) ∧
    (∀ n : ℕ, ((translate_camera dt)^[n] w).camera = some ⟨aT.translation +
        ((1 - dt * w.settings.smoothing) ^ n) • (cam.translation - aT.translation),
        cam.rotation, cam.scale⟩ ∧
      0 ≤ (1 - dt * w.settings.smoothing) ^ n ∧
      (1 - dt * w.settings.smoothing) ^ n ≤ 1) ∧
    Filter.Tendsto (fun n : ℕ => (1 - dt * w.settings.smoothing) ^ n *
      Vec3.dist cam.translation aT.translation) Filter.atTop (nhds 0) := by
  have hW0 : (0 : ℝ) ≤ 1 - dt * w.settings.smoothing := by linarith
  have hW1 : 1 - dt * w.settings.smoothing < 1 := by linarith
  have hdist : ∀ n : ℕ, (((translate_camera dt)^[n] w).camera).map
      (fun t => Vec3.dist t.translation aT.translation) =
      some ((1 - dt * w.settings.smoothing) ^ n *
        Vec3.dist cam.translation aT.translation) := by
    intro n
    rw [(translate_iter_formula dt w cam aT hcam hanc n).1, Option.map_some']
    congr 1
    show Vec3.dist (aT.translation + _ • (cam.translation - aT.translation))
      aT.translation = _
    unfold Vec3.dist
    rw [Vec3.add_smul_sub_self, Vec3.norm_smul,
      abs_of_nonneg (pow_nonneg hW0 n)]
  refine ⟨hdist, ?_, ?_, ?_⟩
  · intro n hne
    have hnn : 0 ≤ (1 - dt * w.settings.smoothing) ^ n *
        Vec3.dist cam.translation aT.translation := by
      apply mul_nonneg (pow_nonneg hW0 n)
      exact Real.sqrt_nonneg _
    have hgt : 0 < (1 - dt * w.settings.smoothing) ^ n *
        Vec3.dist cam.translation aT.translation := lt_of_le_of_ne hnn (Ne.symm hne)
    calc (1 - dt * w.settings.smoothing) ^ (n + 1) *
          Vec3.dist cam.translation aT.translation
        = (1 - dt * w.settings.smoothing) *
          ((1 - dt * w.settings.smoothing) ^ n *
            Vec3.dist cam.translation aT.translation) := by ring
      _ < 1 * ((1 - dt * w.settings.smoothing) ^ n *
            Vec3.dist cam.translation aT.translation) :=
          mul_lt_mul_of_pos_right hW1 hgt
      _ = (1 - dt * w.settings.smoothing) ^ n *
            Vec3.dist cam.translation aT.translation := one_mul _
  · intro n
    exact ⟨(translate_iter_formula dt w cam aT hcam hanc n).1,
      pow_nonneg hW0 n, pow_le_one₀ hW0 (by linarith)⟩
  · have h := (tendsto_pow_atTop_nhds_zero_of_lt_one hW0 hW1).mul_const
      (Vec3.dist cam.translation aT.translation)
    simpa using h

theorem translate_converges_witness :
    (((translate_camera 1)^[1] ⟨⟨1, 1, (1/2 : ℝ), 0, ⟨-45, 60⟩, 0, 0⟩,
        ⟨Quat.identity, 0⟩, some ⟨⟨1, 0, 0⟩, Quat.identity, ⟨1, 1, 1⟩⟩,
        some ⟨⟨0, Quat.identity, ⟨1, 1, 1⟩⟩, none⟩⟩).camera).map
      (fun t => Vec3.dist t.translation
        (⟨0, Quat.identity, ⟨1, 1, 1⟩⟩ : Transform).translation) =
    some ((1 - 1 * (1/2 : ℝ)) ^ 1 *
      Vec3.dist (⟨1, 0, 0⟩ : Vec3)
        (⟨0, Quat.identity, ⟨1, 1, 1⟩⟩ : Transform).translation) :=
  (translate_converges 1 _ ⟨⟨1, 0, 0⟩, Quat.identity, ⟨1, 1, 1⟩⟩
    ⟨0, Quat.identity, ⟨1, 1, 1⟩⟩ rfl rfl
    (by norm_num : (0 : ℝ) < 1 * (1/2 : ℝ))
    (by norm_num : (1 : ℝ) * (1/2 : ℝ) ≤ 1)).1 1

end VictimlessCamera
